import Mathlib

/- Verification of the ai-call-agent voice-orchestration specification against
   the repository sources: the endpoint detector (checkAudio in
   frontend/src/components/CallInterface.tsx), the conversation cycle
   (startConversation in the useVoiceAgent hook), session initialization and
   call teardown (frontend/src/App.tsx, CallInterface.tsx), and the
   spec-described provider router and session registry. -/

namespace AICall

/-! ## Endpoint detector (VAD)

Embeds the silence-detection loop of CallInterface.tsx (`startListening` /
`checkAudio`, second revision): a frame's byte-frequency average above
`silenceThreshold` counts as speech, otherwise as silence; fifteen
consecutive silence checks (about 1.5 s at the commented 100 ms cadence)
while recording stop the recorder and hand the buffered audio on. -/

/-- Energy threshold from CallInterface.tsx: `const silenceThreshold = 25`. -/
def silenceThreshold : Nat := 25

/-- Consecutive silence checks needed to stop, from CallInterface.tsx:
`const silenceDurationFrames = 15; // ~1.5 seconds at 100ms intervals`. -/
def silenceDurationFrames : Nat := 15

/-- Frame cadence in milliseconds, from the source comment
`// ~1.5 seconds at 100ms intervals`. -/
def frameMs : Nat := 100

/-- Configured silence duration in ms, from useVoiceAgent
(`const SILENCE_DURATION = 1500`). -/
def SILENCE_DURATION : Nat := 1500

/-- Configured minimum speech duration in ms, from useVoiceAgent
(`const MIN_SPEECH_DURATION = 500; // ms - ignore audio shorter than this`).
The constant is declared in the source but referenced nowhere else. -/
def MIN_SPEECH_DURATION : Nat := 500

/-- Signals of the detector: `turnEnded` carries the buffered audio handed to
the pipeline (the blob compiled in `mediaRecorder.onstop`). -/
inductive TurnSignal
  | none
  | turnStarted
  | turnEnded (audio : List Nat)
  deriving DecidableEq

/-- Detector state: `isRecordingRef`, `silenceCounterRef` and the
`audioChunks` buffer of CallInterface.tsx. -/
structure VadState where
  recording : Bool
  silenceCount : Nat
  buffer : List Nat
  deriving DecidableEq

/-- Initial refs set by `startListening`: not recording, zero counter,
empty chunk buffer. -/
def initVad : VadState := ⟨false, 0, []⟩

/-- One `checkAudio` invocation on a frame of the given average energy.
Speech (`average > silenceThreshold`) zeroes the counter and starts the
recorder when idle; silence while recording increments the counter and, once
it reaches `silenceDurationFrames`, stops the recorder and emits the
buffered audio; pre-speech silence is a no-op. -/
def checkAudioStep (st : VadState) (energy : Nat) : VadState × TurnSignal :=
  if silenceThreshold < energy then
    if st.recording then
      (⟨true, 0, st.buffer ++ [energy]⟩, TurnSignal.none)
    else
      (⟨true, 0, [energy]⟩, TurnSignal.turnStarted)
  else if st.recording then
    if silenceDurationFrames ≤ st.silenceCount + 1 then
      (⟨false, 0, []⟩, TurnSignal.turnEnded (st.buffer ++ [energy]))
    else
      (⟨true, st.silenceCount + 1, st.buffer ++ [energy]⟩, TurnSignal.none)
  else
    (st, TurnSignal.none)

/-- Feed a sequence of frames to the detector, collecting the per-frame
signals (the stateful `feed(frame) -> TurnSignal` of the spec). -/
def feed : VadState → List Nat → VadState × List TurnSignal
  | st, [] => (st, [])
  | st, e :: es =>
    let step := checkAudioStep st e
    let rest := feed step.1 es
    (rest.1, step.2 :: rest.2)

/-- Whether a signal is a turn finalization. -/
def isEnd : TurnSignal → Bool
  | TurnSignal.turnEnded _ => true
  | _ => false

theorem feed_cons (st : VadState) (e : Nat) (es : List Nat) :
    feed st (e :: es) =
      ((feed (checkAudioStep st e).1 es).1,
        (checkAudioStep st e).2 :: (feed (checkAudioStep st e).1 es).2) := rfl

theorem feed_append (st : VadState) (xs ys : List Nat) :
    feed st (xs ++ ys) =
      ((feed (feed st xs).1 ys).1, (feed st xs).2 ++ (feed (feed st xs).1 ys).2) := by
  induction xs generalizing st with
  | nil => simp [feed]
  | cons x xs ih => simp [feed, ih]

theorem feed_speech_recording (hi : Nat) (hhi : silenceThreshold < hi) :
    ∀ (k : Nat) (buf : List Nat),
      feed ⟨true, 0, buf⟩ (List.replicate k hi) =
        (⟨true, 0, buf ++ List.replicate k hi⟩, List.replicate k TurnSignal.none) := by
  intro k
  induction k with
  | zero => intro buf; simp [feed]
  | succ k ih =>
    intro buf
    simp only [List.replicate_succ, feed, checkAudioStep, if_pos hhi, if_pos rfl]
    simp [ih (buf ++ [hi]), List.replicate_succ]

theorem feed_silence_idle (lo : Nat) (hlo : lo ≤ silenceThreshold) :
    ∀ (k : Nat) (c : Nat) (buf : List Nat),
      feed ⟨false, c, buf⟩ (List.replicate k lo) =
        (⟨false, c, buf⟩, List.replicate k TurnSignal.none) := by
  intro k
  induction k with
  | zero => intro c buf; simp [feed]
  | succ k ih =>
    intro c buf
    have hnot : ¬ silenceThreshold < lo := not_lt.mpr hlo
    simp only [List.replicate_succ, feed, checkAudioStep, if_neg hnot]
    simp [ih c buf, List.replicate_succ]

theorem feed_silence_run (lo : Nat) (hlo : lo ≤ silenceThreshold) :
    ∀ (k : Nat) (c : Nat) (buf : List Nat),
      c + k = silenceDurationFrames → 1 ≤ k →
      feed ⟨true, c, buf⟩ (List.replicate k lo) =
        (⟨false, 0, []⟩,
          List.replicate (k - 1) TurnSignal.none ++
            [TurnSignal.turnEnded (buf ++ List.replicate k lo)]) := by
  intro k
  induction k with
  | zero => intro c buf _ hk1; omega
  | succ k ih =>
    intro c buf hck _
    have hnot : ¬ silenceThreshold < lo := not_lt.mpr hlo
    cases k with
    | zero =>
      have hc : silenceDurationFrames ≤ c + 1 := by omega
      have hstep : checkAudioStep ⟨true, c, buf⟩ lo =
          (⟨false, 0, []⟩, TurnSignal.turnEnded (buf ++ [lo])) := by
        simp [checkAudioStep, hnot, hc]
      rw [List.replicate_succ, List.replicate_zero, feed_cons, hstep]
      rfl
    | succ k =>
      have hc : ¬ silenceDurationFrames ≤ c + 1 := by omega
      have hstep : checkAudioStep ⟨true, c, buf⟩ lo =
          (⟨true, c + 1, buf ++ [lo]⟩, TurnSignal.none) := by
        simp [checkAudioStep, hnot, hc]
      rw [List.replicate_succ, feed_cons, hstep]
      dsimp only
      rw [ih (c + 1) (buf ++ [lo]) (by omega) (by omega)]
      simp [List.replicate_succ, List.append_assoc]

/-- C1. For a frame sequence of at least `MIN_SPEECH_DURATION` of speech
followed by at least `SILENCE_DURATION` of silence, the detector emits
exactly one `turnEnded`, at the frame where the consecutive-silence run
first reaches the `SILENCE_DURATION` threshold (the fifteenth silence
frame, index `s + silenceDurationFrames - 1`); no other frame of the
sequence emits `turnEnded`. -/
theorem c1_vad_finalization (hi lo s t : Nat)
    (hhi : silenceThreshold < hi) (hlo : lo ≤ silenceThreshold)
    (hs : MIN_SPEECH_DURATION ≤ s * frameMs)
    (ht : SILENCE_DURATION ≤ t * frameMs) :
    ∃ before audio after,
      (feed initVad (List.replicate s hi ++ List.replicate t lo)).2 =
          before ++ TurnSignal.turnEnded audio :: after ∧
        before.length = s + (silenceDurationFrames - 1) ∧
        (∀ x ∈ before, isEnd x = false) ∧
        (∀ x ∈ after, isEnd x = false) ∧
        silenceDurationFrames * frameMs = SILENCE_DURATION ∧
        (silenceDurationFrames - 1) * frameMs < SILENCE_DURATION := by
  have hs1 : 1 ≤ s := by
    simp only [MIN_SPEECH_DURATION, frameMs] at hs; omega
  have ht15 : silenceDurationFrames ≤ t := by
    simp only [SILENCE_DURATION, frameMs, silenceDurationFrames] at ht ⊢; omega
  -- decompose the input into first speech frame, rest of speech, 15 stopping
  -- silence frames, and trailing silence
  have hsplit : List.replicate s hi = hi :: List.replicate (s - 1) hi := by
    rw [← List.replicate_succ]
    congr 1
    omega
  have htsplit : List.replicate t lo =
      List.replicate silenceDurationFrames lo ++
        List.replicate (t - silenceDurationFrames) lo := by
    rw [← List.replicate_add]
    congr 1
    omega
  refine ⟨TurnSignal.turnStarted ::
      (List.replicate (s - 1) TurnSignal.none ++
        List.replicate (silenceDurationFrames - 1) TurnSignal.none),
    List.replicate s hi ++ List.replicate silenceDurationFrames lo,
    List.replicate (t - silenceDurationFrames) TurnSignal.none, ?_, ?_, ?_, ?_, ?_, ?_⟩
  · have e1 : List.replicate s hi ++ List.replicate t lo =
        hi :: (List.replicate (s - 1) hi ++
          (List.replicate silenceDurationFrames lo ++
            List.replicate (t - silenceDurationFrames) lo)) := by
      rw [hsplit, htsplit, List.cons_append]
    have hstep : checkAudioStep initVad hi =
        (⟨true, 0, [hi]⟩, TurnSignal.turnStarted) := by
      simp [checkAudioStep, initVad, hhi]
    have hbuf : ([hi] : List Nat) ++ List.replicate (s - 1) hi =
        List.replicate s hi := by
      rw [show ([hi] : List Nat) = List.replicate 1 hi from rfl,
        ← List.replicate_add]
      congr 1
      omega
    rw [e1, feed_cons, hstep]
    dsimp only
    rw [feed_append, feed_speech_recording hi hhi (s - 1) [hi]]
    dsimp only
    rw [hbuf, feed_append,
      feed_silence_run lo hlo silenceDurationFrames 0 (List.replicate s hi)
        (by omega) (by decide),
      feed_silence_idle lo hlo (t - silenceDurationFrames) 0 []]
    dsimp only
    simp only [List.cons_append, List.append_assoc, List.singleton_append,
      List.nil_append]
  · have : s - 1 + (silenceDurationFrames - 1) + 1 = s + (silenceDurationFrames - 1) := by
      simp only [silenceDurationFrames]; omega
    simp [← this, Nat.add_comm]
  · intro x hx
    simp only [List.mem_cons, List.mem_append, List.mem_replicate] at hx
    rcases hx with h | h | h
    · rw [h]; rfl
    · rw [h.2]; rfl
    · rw [h.2]; rfl
  · intro x hx
    simp only [List.mem_replicate] at hx
    rw [hx.2]; rfl
  · decide
  · decide

/-- Witness for C1 at a concrete input: five speech frames of energy 100
(500 ms of speech) followed by fifteen silence frames of energy 0 (1.5 s of
silence). -/
theorem c1_vad_finalization_witness :
    (silenceThreshold < 100 ∧ 0 ≤ silenceThreshold ∧
        MIN_SPEECH_DURATION ≤ 5 * frameMs ∧ SILENCE_DURATION ≤ 15 * frameMs) ∧
      ∃ before audio after,
        (feed initVad (List.replicate 5 100 ++ List.replicate 15 0)).2 =
            before ++ TurnSignal.turnEnded audio :: after ∧
          before.length = 5 + (silenceDurationFrames - 1) ∧
          (∀ x ∈ before, isEnd x = false) ∧
          (∀ x ∈ after, isEnd x = false) ∧
          silenceDurationFrames * frameMs = SILENCE_DURATION ∧
          (silenceDurationFrames - 1) * frameMs < SILENCE_DURATION :=
  ⟨⟨by decide, by decide, by decide, by decide⟩,
    c1_vad_finalization 100 0 5 15 (by decide) (by decide) (by decide) (by decide)⟩

/-- C5 evaluation at the failing input: a single 100 ms speech frame
(energy 100, total speech `1 * frameMs = 100 ms < MIN_SPEECH_DURATION`)
followed by fifteen silence frames makes `checkAudio` stop the recorder and
emit `turnEnded` with the non-empty buffered audio, which
`mediaRecorder.onstop` then sends for transcription; the declared
`MIN_SPEECH_DURATION` guard is never consulted. -/
theorem c5_short_turn_is_finalized :
    1 * frameMs < MIN_SPEECH_DURATION ∧
      (feed initVad (100 :: List.replicate 15 0)).2 =
        TurnSignal.turnStarted ::
          (List.replicate 14 TurnSignal.none ++
            [TurnSignal.turnEnded (100 :: List.replicate 15 0)]) ∧
      (100 :: List.replicate 15 0 : List Nat) ≠ [] := by
  refine ⟨by decide, by decide, by decide⟩

/-! ## Provider router

The multi-provider fallback router is part of the backend, which is not
present under src/ (the docs only quote its single-provider startup
selection, `_determine_provider`); the router itself is therefore modelled
from the spec, section 4.2. The semantic-emptiness check of C6 is embedded
from source (`transcribeAudio` in the useVoiceAgent hook). -/

/-- The three capabilities routed by the spec, section 4.2. -/
inductive Capability
  | transcription
  | reasoning
  | synthesis
  deriving DecidableEq

/-- Modelled from the spec: the failure value returned when a capability's
priority list is exhausted, `ProviderFailure\x7bcapability, triedProviders,
lastError\x7d` (section 4.2; the backend router is not under src/). -/
structure ProviderFailure (π ε : Type) where
  capability : Capability
  triedProviders : List π
  lastError : Option ε

/-- Modelled from the spec: the fallback loop of `invoke` (section 4.2; the
backend router is not under src/). It walks the priority list carrying the
failures recorded so far and the most recent error; each provider is
attempted once, a success returns immediately, a failure is recorded and
the next provider is tried, and an exhausted list yields `ProviderFailure`
with all tried providers. -/
def invokeGo {π ε ρ : Type} (cap : Capability) (call : π → Except ε ρ) :
    List π → List (π × ε) → Option ε →
      Except (ProviderFailure π ε) ρ × List (π × ε)
  | [], recorded, lastE =>
    (Except.error ⟨cap, recorded.map Prod.fst, lastE⟩, recorded)
  | p :: ps, recorded, _ =>
    match call p with
    | Except.ok r => (Except.ok r, recorded)
    | Except.error e => invokeGo cap call ps (recorded ++ [(p, e)]) (some e)

/-- Modelled from the spec: `invoke(capability, request)` starts the
fallback loop on the configured priority list with nothing recorded
(section 4.2). The result pairs the routing outcome with the recorded
failures. -/
def invoke {π ε ρ : Type} (cap : Capability) (call : π → Except ε ρ)
    (priorityList : List π) :
    Except (ProviderFailure π ε) ρ × List (π × ε) :=
  invokeGo cap call priorityList [] none

/-- Accumulates the last recorded error over a provider list, mirroring the
`lastE` accumulator of `invokeGo` when every provider fails. -/
def lastErrAux {π ε : Type} (err : π → ε) : List π → Option ε → Option ε
  | [], lastE => lastE
  | p :: ps, _ => lastErrAux err ps (some (err p))

theorem invokeGo_ok_of_prefix_fails {π ε ρ : Type} (cap : Capability)
    (call : π → Except ε ρ) (succ : π) (r : ρ) (hs : call succ = Except.ok r)
    (err : π → ε) :
    ∀ (pre : List π), (∀ p ∈ pre, call p = Except.error (err p)) →
      ∀ (rest : List π) (recorded : List (π × ε)) (lastE : Option ε),
        invokeGo cap call (pre ++ succ :: rest) recorded lastE =
          (Except.ok r, recorded ++ pre.map fun p => (p, err p)) := by
  intro pre
  induction pre with
  | nil =>
    intro _ rest recorded lastE
    simp [invokeGo, hs]
  | cons p pre ih =>
    intro hf rest recorded lastE
    have hp : call p = Except.error (err p) := hf p (List.mem_cons_self p pre)
    simp only [List.cons_append, invokeGo, hp, List.append_eq]
    rw [ih (fun q hq => hf q (List.mem_cons_of_mem p hq)) rest
      (recorded ++ [(p, err p)]) (some (err p))]
    simp

/-- C2. For any configured priority list that is some failing prefix
followed by a succeeding provider and arbitrary later providers, `invoke`
attempts providers in configured order, returns the first success without
attempting any later provider (the result does not depend on `rest`), and
records exactly the failures of the providers attempted before the
success, in attempt order. -/
theorem c2_fallback_determinism {π ε ρ : Type} (cap : Capability)
    (call : π → Except ε ρ) (pre rest : List π) (succ : π) (err : π → ε)
    (r : ρ) (hf : ∀ p ∈ pre, call p = Except.error (err p))
    (hs : call succ = Except.ok r) :
    invoke cap call (pre ++ succ :: rest) =
      (Except.ok r, pre.map fun p => (p, err p)) := by
  unfold invoke
  rw [invokeGo_ok_of_prefix_fails cap call succ r hs err pre hf rest [] none]
  simp

/-- Witness for C2: capability transcription with providers A, B, C where A
and B fail and C succeeds returns C's result and records exactly the two
failures of A then B. -/
theorem c2_fallback_determinism_witness :
    (∀ p ∈ ["A", "B"],
        (fun q => if q = "C" then (Except.ok 7 : Except String Nat)
          else Except.error ("down " ++ q)) p =
          Except.error ("down " ++ p)) ∧
      invoke Capability.transcription
          (fun q => if q = "C" then (Except.ok 7 : Except String Nat)
            else Except.error ("down " ++ q)) (["A", "B"] ++ "C" :: []) =
        (Except.ok 7, [("A", "down A"), ("B", "down B")]) := by
  refine ⟨by intro p hp; fin_cases hp <;> rfl, ?_⟩
  have h := c2_fallback_determinism Capability.transcription
    (fun q => if q = "C" then (Except.ok 7 : Except String Nat)
      else Except.error ("down " ++ q))
    ["A", "B"] [] "C" (fun p => "down " ++ p) 7
    (by intro p hp; fin_cases hp <;> rfl) rfl
  simpa using h

theorem invokeGo_all_fail {π ε ρ : Type} (cap : Capability)
    (call : π → Except ε ρ) (err : π → ε) :
    ∀ (ps : List π), (∀ p ∈ ps, call p = Except.error (err p)) →
      ∀ (recorded : List (π × ε)) (lastE : Option ε),
        invokeGo cap call ps recorded lastE =
          (Except.error
              ⟨cap, recorded.map Prod.fst ++ ps, lastErrAux err ps lastE⟩,
            recorded ++ ps.map fun p => (p, err p)) := by
  intro ps
  induction ps with
  | nil =>
    intro _ recorded lastE
    simp [invokeGo, lastErrAux]
  | cons p ps ih =>
    intro hf recorded lastE
    have hp : call p = Except.error (err p) := hf p (List.mem_cons_self p ps)
    simp only [invokeGo, hp]
    rw [ih (fun q hq => hf q (List.mem_cons_of_mem p hq))
      (recorded ++ [(p, err p)]) (some (err p))]
    simp [lastErrAux]

theorem lastErrAux_append {π ε : Type} (err : π → ε) :
    ∀ (xs ys : List π) (lastE : Option ε),
      lastErrAux err (xs ++ ys) lastE = lastErrAux err ys (lastErrAux err xs lastE) := by
  intro xs
  induction xs with
  | nil => intro ys lastE; rfl
  | cons x xs ih => intro ys lastE; simp [lastErrAux, ih]

/-- C7. If every provider of the capability's list fails, `invoke` returns
a `ProviderFailure` (no exception, no partial result) listing all attempted
providers in configured order, with the capability, the last provider's
error as `lastError`, and every failure recorded in order. -/
theorem c7_exhaustion {π ε ρ : Type} (cap : Capability)
    (call : π → Except ε ρ) (ps : List π) (err : π → ε)
    (hf : ∀ p ∈ ps, call p = Except.error (err p)) :
    invoke cap call ps =
        (Except.error ⟨cap, ps, lastErrAux err ps none⟩,
          ps.map fun p => (p, err p)) ∧
      ∀ (qs : List π) (q : π), ps = qs ++ [q] →
        lastErrAux err ps none = some (err q) := by
  constructor
  · unfold invoke
    rw [invokeGo_all_fail cap call err ps hf [] none]
    simp
  · intro qs q hq
    rw [hq, lastErrAux_append]
    rfl

/-- Witness for C7: two providers that both fail produce a
`ProviderFailure` listing both in order with the second's error last. -/
theorem c7_exhaustion_witness :
    (∀ p ∈ ["A", "B"],
        (fun _ => (Except.error "down" : Except String Nat)) p =
          Except.error ((fun _ => "down") p)) ∧
      (invoke Capability.reasoning
            (fun _ => (Except.error "down" : Except String Nat)) ["A", "B"] =
          (Except.error ⟨Capability.reasoning, ["A", "B"],
            lastErrAux (fun _ => "down") ["A", "B"] none⟩,
            [("A", "down"), ("B", "down")]) ∧
        ∀ (qs : List String) (q : String), ["A", "B"] = qs ++ [q] →
          lastErrAux (fun _ => "down") ["A", "B"] none = some "down") := by
  refine ⟨by intro p _; rfl, ?_⟩
  exact c7_exhaustion Capability.reasoning
    (fun _ => (Except.error "down" : Except String Nat)) ["A", "B"]
    (fun _ => "down") (by intro p _; rfl)

/-- The `transcript.trim()` of the source, modelled structurally on the
character list: strip leading and trailing whitespace. -/
def trimChars (cs : List Char) : List Char :=
  ((cs.dropWhile Char.isWhitespace).reverse.dropWhile Char.isWhitespace).reverse

/-- JS `String.prototype.trim` on Lean strings via `trimChars`. -/
def jsTrim (s : String) : String := String.mk (trimChars s.data)

/-- Embeds the finalization branch of `transcribeAudio` in the useVoiceAgent
hook (`recognition.onend`): if the accumulated transcript trims to a
non-empty string it is resolved (trimmed) as the result, otherwise the
promise is rejected with an empty-transcription error. -/
def finalizeTranscript (transcript : String) : Except String String :=
  if jsTrim transcript ≠ "" then Except.ok (jsTrim transcript)
  else Except.error "Empty transcription"

theorem finalizeTranscript_ok_ne_empty (t r : String)
    (h : finalizeTranscript t = Except.ok r) : r ≠ "" := by
  unfold finalizeTranscript at h
  by_cases ht : jsTrim t ≠ ""
  · rw [if_pos ht] at h
    cases h
    exact ht
  · rw [if_neg ht] at h
    cases h

theorem invokeGo_ok_origin {π ε ρ : Type} (cap : Capability)
    (call : π → Except ε ρ) :
    ∀ (ps : List π) (recorded : List (π × ε)) (lastE : Option ε) (r : ρ)
      (flog : List (π × ε)),
      invokeGo cap call ps recorded lastE = (Except.ok r, flog) →
        ∃ p, p ∈ ps ∧ call p = Except.ok r := by
  intro ps
  induction ps with
  | nil =>
    intro recorded lastE r flog h
    simp [invokeGo] at h
  | cons p ps ih =>
    intro recorded lastE r flog h
    cases hc : call p with
    | ok v =>
      have hred : invokeGo cap call (p :: ps) recorded lastE =
          (Except.ok v, recorded) := by
        simp [invokeGo, hc]
      rw [hred] at h
      injection h with h1 h2
      injection h1 with h3
      exact ⟨p, List.mem_cons_self p ps, by rw [hc, h3]⟩
    | error e =>
      have hred : invokeGo cap call (p :: ps) recorded lastE =
          invokeGo cap call ps (recorded ++ [(p, e)]) (some e) := by
        simp [invokeGo, hc]
      rw [hred] at h
      obtain ⟨q, hq, hcall⟩ := ih (recorded ++ [(p, e)]) (some e) r flog h
      exact ⟨q, List.mem_cons_of_mem p hq, hcall⟩

/-- C6. A syntactically valid but semantically empty provider response (a
transcript that trims to the empty string) is treated as a provider failure
and the router proceeds to the next configured provider, and no invocation
of the emptiness-checked transcription call ever returns an empty result as
a success. -/
theorem c6_empty_result_is_failure {π : Type} (raw : π → String) (a b : π)
    (ha : jsTrim (raw a) = "") (hb : jsTrim (raw b) ≠ "") :
    invoke Capability.transcription (fun p => finalizeTranscript (raw p))
        [a, b] =
      (Except.ok (jsTrim (raw b)), [(a, "Empty transcription")]) ∧
      ∀ (ps : List π) (r : String) (flog : List (π × String)),
        invoke Capability.transcription
            (fun p => finalizeTranscript (raw p)) ps = (Except.ok r, flog) →
          r ≠ "" := by
  constructor
  · have hsa : finalizeTranscript (raw a) = Except.error "Empty transcription" := by
      unfold finalizeTranscript
      rw [if_neg (by simp [ha])]
    have hsb : finalizeTranscript (raw b) = Except.ok (jsTrim (raw b)) := by
      unfold finalizeTranscript
      rw [if_pos hb]
    unfold invoke
    simp [invokeGo, hsa, hsb]
  · intro ps r flog h
    obtain ⟨p, _, hcall⟩ := invokeGo_ok_origin Capability.transcription
      (fun p => finalizeTranscript (raw p)) ps [] none r flog h
    exact finalizeTranscript_ok_ne_empty (raw p) r hcall

/-- Witness for C6: provider A returns a whitespace-only transcript, which
is recorded as a failure, and provider B's non-empty transcript is returned
trimmed. -/
theorem c6_empty_result_is_failure_witness :
    (jsTrim ((fun p => if p = "B" then " hello " else " ") "A") = "" ∧
        jsTrim ((fun p => if p = "B" then " hello " else " ") "B") ≠ "") ∧
      (invoke Capability.transcription
            (fun p => finalizeTranscript
              ((fun q => if q = "B" then " hello " else " ") p)) ["A", "B"] =
          (Except.ok (jsTrim ((fun q => if q = "B" then " hello " else " ") "B")),
            [("A", "Empty transcription")]) ∧
        ∀ (ps : List String) (r : String) (flog : List (String × String)),
          invoke Capability.transcription
              (fun p => finalizeTranscript
                ((fun q => if q = "B" then " hello " else " ") p)) ps =
            (Except.ok r, flog) → r ≠ "") := by
  refine ⟨⟨by decide, by decide⟩, ?_⟩
  exact c6_empty_result_is_failure
    (fun q => if q = "B" then " hello " else " ") "A" "B" (by decide) (by decide)

/-! ## Session registry and conversation history

The backend session store (the per-session message list consulted by the
reasoning call) is not under src/; the frontend hook only declares a
`messages` state mirror. The registry's `appendTurn` ordering contract is
therefore modelled from the spec, section 4.4. -/

/-- Turn roles, from the `Message` interface of the useVoiceAgent hook
(`role: 'user' | 'assistant'`) and the spec's caller/agent. -/
inductive Role
  | caller
  | agent
  deriving DecidableEq

/-- A completed turn as recorded in history: role, finalized text, and the
time the turn completed (the `timestamp` field of `Message`). -/
structure Turn where
  role : Role
  text : String
  completedAt : Nat
  deriving DecidableEq

/-- Modelled from the spec: `appendTurn(id, turn)` appends the turn at the
end of the session's history (section 4.4; the backend registry is not
under src/). -/
def appendTurn (history : List Turn) (t : Turn) : List Turn := history ++ [t]

/-- Apply a sequence of `appendTurn` calls in submission order. -/
def applyAppends (history : List Turn) (submitted : List Turn) : List Turn :=
  submitted.foldl appendTurn history

/-- Whether a role sequence strictly alternates. -/
def alternates : List Role → Bool
  | [] => true
  | [_] => true
  | a :: b :: rest => (a ≠ b : Bool) && alternates (b :: rest)

theorem applyAppends_eq (history submitted : List Turn) :
    applyAppends history submitted = history ++ submitted := by
  induction submitted generalizing history with
  | nil => simp [applyAppends]
  | cons t ts ih =>
    simp only [applyAppends, List.foldl_cons] at *
    rw [show appendTurn history t = history ++ [t] from rfl, ih]
    simp

/-- C8. Applying the `appendTurn` calls of N completed turns, in submission
order, to an empty history yields exactly those N entries in that order;
in particular, when the submitted turns alternate caller/agent and are
submitted in completion order, the resulting history has exactly N entries,
alternates caller/agent, and is ordered by completion time, independent of
any provider latency that preceded each submission. -/
theorem c8_history_ordering (submitted : List Turn)
    (halt : alternates (submitted.map Turn.role) = true)
    (hchron : List.Chain' (fun a b => a.completedAt ≤ b.completedAt) submitted) :
    applyAppends [] submitted = submitted ∧
      (applyAppends [] submitted).length = submitted.length ∧
      alternates ((applyAppends [] submitted).map Turn.role) = true ∧
      List.Chain' (fun a b => a.completedAt ≤ b.completedAt)
        (applyAppends [] submitted) := by
  have h := applyAppends_eq [] submitted
  simp only [List.nil_append] at h
  exact ⟨h, by rw [h], by rw [h]; exact halt, by rw [h]; exact hchron⟩

/-- Witness for C8 at a concrete two-turn session: a caller turn followed by
an agent turn, submitted in completion order. -/
theorem c8_history_ordering_witness :
    (alternates (([⟨Role.caller, "hi", 10⟩, ⟨Role.agent, "hello", 20⟩] :
            List Turn).map Turn.role) = true ∧
        List.Chain' (fun a b => a.completedAt ≤ b.completedAt)
          ([⟨Role.caller, "hi", 10⟩, ⟨Role.agent, "hello", 20⟩] : List Turn)) ∧
      (applyAppends [] [⟨Role.caller, "hi", 10⟩, ⟨Role.agent, "hello", 20⟩] =
          [⟨Role.caller, "hi", 10⟩, ⟨Role.agent, "hello", 20⟩] ∧
        (applyAppends [] [⟨Role.caller, "hi", 10⟩,
            ⟨Role.agent, "hello", 20⟩]).length =
          ([⟨Role.caller, "hi", 10⟩, ⟨Role.agent, "hello", 20⟩] :
            List Turn).length ∧
        alternates ((applyAppends [] [⟨Role.caller, "hi", 10⟩,
            ⟨Role.agent, "hello", 20⟩]).map Turn.role) = true ∧
        List.Chain' (fun a b => a.completedAt ≤ b.completedAt)
          (applyAppends [] [⟨Role.caller, "hi", 10⟩,
            ⟨Role.agent, "hello", 20⟩])) := by
  have hch : List.Chain' (fun a b => a.completedAt ≤ b.completedAt)
      ([⟨Role.caller, "hi", 10⟩, ⟨Role.agent, "hello", 20⟩] : List Turn) := by
    simp [List.chain'_cons, List.chain'_singleton]
  refine ⟨⟨by decide, hch⟩, ?_⟩
  exact c8_history_ordering
    [⟨Role.caller, "hi", 10⟩, ⟨Role.agent, "hello", 20⟩] (by decide) hch

/-! ## Conversation cycle failure handling

Embeds the promise chain of `startConversation` in the useVoiceAgent hook:
after silence stops the recording,
`transcribeAudio(blob).then(t => sendMessage(t).then(r => if (r) ...))`
runs with no rejection handler. `startRecording` set state listening;
`sendMessage` sets state processing and returns null on fetch failure;
`speakText` sets speaking then idle (also on TTS error) and resolves either
way; `startConversation()` is invoked again, restarting the loop and
returning to listening, only inside `if (aiResponse)`. -/

/-- The state values of the useVoiceAgent hook
(`'idle' | 'listening' | 'processing' | 'speaking'`). -/
inductive AgentState
  | idle
  | listening
  | processing
  | speaking
  deriving DecidableEq

/-- Outcome of one conversation cycle: the state the session is left in and
whether `startConversation` was invoked again (the conversation continues). -/
structure CycleOutcome where
  finalState : AgentState
  restarted : Bool
  deriving DecidableEq

/-- One cycle of `startConversation` after silence was detected:
`transcription` is the settled result of `transcribeAudio`, `aiResponse`
the value `sendMessage` resolves with (none models the null returned on
fetch failure), `ttsOk` whether speech synthesis succeeded. A rejected
transcription aborts the chain (state still listening from
`startRecording`, no restart); a null response skips the restart branch
(state processing from `sendMessage`); otherwise `speakText` resolves and
the cycle restarts into listening whether or not TTS succeeded. -/
def runCycle (transcription : Except String String)
    (aiResponse : String → Option String) (ttsOk : Bool) : CycleOutcome :=
  match transcription with
  | Except.error _ => ⟨AgentState.listening, false⟩
  | Except.ok transcript =>
    match aiResponse transcript with
    | none => ⟨AgentState.processing, false⟩
    | some _ =>
      match ttsOk with
      | true => ⟨AgentState.listening, true⟩
      | false => ⟨AgentState.listening, true⟩

/-- C4 counterexample: on a reasoning failure (sendMessage returns null
after its fetch fails), the cycle is left in the processing state and the
conversation does not continue, contradicting the claim that every
turn-level failure returns the session to listening and the conversation
continues. -/
theorem c4_counterexample :
    (runCycle (Except.ok "I need an appointment") (fun _ => none) true).restarted =
        false ∧
      (runCycle (Except.ok "I need an appointment") (fun _ => none)
          true).finalState ≠ AgentState.listening := by
  exact ⟨rfl, by decide⟩

/-- C4 amended. Only a synthesis failure is recovered from: the cycle still
restarts and returns to listening. A transcription failure leaves the chain
aborted with no restart, and a reasoning failure halts the cycle in the
processing state; in neither case does the conversation continue. -/
theorem c4_amended_failure_handling :
    (∀ (t reply : String) (ttsOk : Bool),
        runCycle (Except.ok t) (fun _ => some reply) ttsOk =
          ⟨AgentState.listening, true⟩) ∧
      (∀ (e : String) (ai : String → Option String) (ttsOk : Bool),
        runCycle (Except.error e) ai ttsOk = ⟨AgentState.listening, false⟩) ∧
      (∀ (t : String) (ttsOk : Bool),
        runCycle (Except.ok t) (fun _ => none) ttsOk =
          ⟨AgentState.processing, false⟩) := by
  refine ⟨?_, ?_, ?_⟩
  · intro t reply ttsOk
    cases ttsOk <;> rfl
  · intro e ai ttsOk
    rfl
  · intro t ttsOk
    rfl

/-! ## CallInterface playback and capture events

Embeds the event handlers of CallInterface.tsx (second revision) as a step
relation. `startCall` runs in the render where the Call button exists, and
that button is rendered only while `callState.isConnected` is false; the
WebSocket handlers it installs, and the `playAudio`, `startListening` and
`checkAudio` closures they reference, permanently capture that render's
`callState`. The guards `if (callState.isConnected)` inside `audio.onended`
and at the top of `checkAudio` therefore read that captured value — always
false for a session started via the button — not the live connection state.
The step function takes that captured value as the `captured` parameter:
`ws.onopen` connects; `ws.onmessage` with an audio blob starts playback and
updates the state flags; `audio.onended` ends playback physically and calls
`startListening` only when its captured guard passes; an animation frame
runs one `checkAudio` step while the loop is alive, where a failing
captured guard makes the loop exit without rescheduling; `ws.onclose` and
`endCall` run `stopListening` through live refs. -/

/-- System state of one CallInterface session: WebSocket connectivity,
whether agent audio is currently playing, whether the `checkAudio`
monitoring loop is scheduled, and the recorder state of that loop. -/
structure CallSysState where
  connected : Bool
  playing : Bool
  monitoring : Bool
  vad : VadState
  deriving DecidableEq

/-- Events driving CallInterface.tsx. -/
inductive CallEvent
  | wsOpen
  | wsMessage
  | playbackEnded
  | frame (energy : Nat)
  | wsClosed
  | endCallPress
  deriving DecidableEq

/-- One event of CallInterface.tsx. `captured` is the `callState.isConnected`
value seen by the closures installed in `startCall` (false for any session
started via the Call button). `wsMessage` (an agent audio blob) starts
playback and only updates the state flags; `playbackEnded` (audio.onended)
ends playback and calls `startListening`, resetting the recorder refs, only
when the captured guard passes; `frame` runs `checkAudio` once if the loop
is alive, and the loop exits without rescheduling when the captured guard
fails; `wsClosed` and `endCallPress` run `stopListening` through the live
refs and drop connectivity. -/
def ciStep (captured : Bool) (s : CallSysState) : CallEvent → CallSysState
  | CallEvent.wsOpen => { s with connected := true }
  | CallEvent.wsMessage => { s with playing := true }
  | CallEvent.playbackEnded =>
    if captured then
      { s with playing := false, monitoring := true, vad := initVad }
    else
      { s with playing := false }
  | CallEvent.frame energy =>
    if s.monitoring then
      if captured then
        { s with vad := (checkAudioStep s.vad energy).1 }
      else
        { s with monitoring := false }
    else s
  | CallEvent.wsClosed =>
    { s with
      connected := false
      monitoring := false
      vad := { s.vad with recording := false } }
  | CallEvent.endCallPress =>
    { s with
      connected := false
      monitoring := false
      vad := { s.vad with recording := false } }

/-- Run a sequence of events from a start state, with the given captured
guard value. -/
def ciRun (captured : Bool) (s : CallSysState) (events : List CallEvent) :
    CallSysState :=
  events.foldl (ciStep captured) s

/-- The initial state before the call: nothing connected, playing,
monitored, or recorded. -/
def ciInit : CallSysState := ⟨false, false, false, initVad⟩

theorem ciStep_stale_preserves (s : CallSysState) (e : CallEvent)
    (hm : s.monitoring = false) (hr : s.vad.recording = false) :
    (ciStep false s e).monitoring = false ∧
      (ciStep false s e).vad.recording = false := by
  cases e <;> simp [ciStep, hm, hr]

theorem ciRun_stale_no_capture (events : List CallEvent) :
    ∀ (s : CallSysState), s.monitoring = false → s.vad.recording = false →
      (ciRun false s events).monitoring = false ∧
        (ciRun false s events).vad.recording = false := by
  induction events with
  | nil => intro s hm hr; exact ⟨hm, hr⟩
  | cons e es ih =>
    intro s hm hr
    have h := ciStep_stale_preserves s e hm hr
    exact ih (ciStep false s e) h.1 h.2

/-- C3. In every reachable state of a session started via the Call button
(whose closures captured `isConnected = false`), the microphone recorder is
never capturing while agent audio is playing — the capture loop is in fact
never restarted after playback, because the `audio.onended` guard reads the
captured value; and in general, for any captured guard value, the only
event that ever turns the capture loop on is the playback-completion
signal, so listening can resume only after playback completes. -/
theorem c3_no_barge_in :
    (∀ events : List CallEvent,
        ¬((ciRun false ciInit events).playing = true ∧
          (ciRun false ciInit events).vad.recording = true)) ∧
      ∀ (captured : Bool) (s : CallSysState) (e : CallEvent),
        (ciStep captured s e).monitoring = true →
          s.monitoring = true ∨ e = CallEvent.playbackEnded := by
  constructor
  · intro events h
    have hinv := ciRun_stale_no_capture events ciInit rfl rfl
    rw [hinv.2] at h
    exact Bool.false_ne_true h.2
  · intro captured s e h
    cases e with
    | wsOpen => exact Or.inl h
    | wsMessage => exact Or.inl h
    | playbackEnded => exact Or.inr rfl
    | frame energy =>
      by_cases hm : s.monitoring = true
      · exact Or.inl hm
      · have hred : ciStep captured s (CallEvent.frame energy) = s := by
          simp [ciStep, hm]
        rw [hred] at h
        exact Or.inl h
    | wsClosed =>
      simp only [ciStep] at h
      cases h
    | endCallPress =>
      simp only [ciStep] at h
      cases h

/-- Witness for C3: on the concrete trace connect, greeting message,
playback end, one loud frame, second message, the reached state is not
playing-while-recording; and the playback-completion event on a
non-monitoring state with a passing captured guard is attributed to
`playbackEnded`. -/
theorem c3_no_barge_in_witness :
    ¬((ciRun false ciInit [CallEvent.wsOpen, CallEvent.wsMessage,
          CallEvent.playbackEnded, CallEvent.frame 100,
          CallEvent.wsMessage]).playing = true ∧
        (ciRun false ciInit [CallEvent.wsOpen, CallEvent.wsMessage,
          CallEvent.playbackEnded, CallEvent.frame 100,
          CallEvent.wsMessage]).vad.recording = true) ∧
      ((⟨true, true, false, initVad⟩ : CallSysState).monitoring = true ∨
        CallEvent.playbackEnded = CallEvent.playbackEnded) :=
  ⟨c3_no_barge_in.1 [CallEvent.wsOpen, CallEvent.wsMessage,
      CallEvent.playbackEnded, CallEvent.frame 100, CallEvent.wsMessage],
    c3_no_barge_in.2 true ⟨true, true, false, initVad⟩
      CallEvent.playbackEnded rfl⟩

/-! ## Session initialization fallback (App.tsx)

Embeds `initializeSession` of frontend/src/App.tsx (second revision): a
failed fetch, a non-ok HTTP status, or a response whose `session_id` is
missing or falsy all take the catch path, which records the error and
installs the fallback id built from the current timestamp; the Call button
is rendered with `disabled=\x7b!sessionId\x7d`. -/

/-- Outcome of the `fetch(.../session/new)` request as seen by
`initializeSession`: network failure, non-ok HTTP status, or a parsed JSON
body with an optional `session_id` field. -/
inductive SessionResponse
  | netError
  | httpError (code : Nat)
  | okJson (sessionId : Option String)
  deriving DecidableEq

/-- Embeds `initializeSession`: returns the resulting `sessionId` and
`sessionError` states. A present, truthy `session_id` is installed with no
error; every other outcome throws into the catch block, which sets the
error and installs `fallback-` followed by `Date.now()`. -/
def initializeSession (resp : SessionResponse) (now : Nat) :
    Option String × Option String :=
  match resp with
  | SessionResponse.okJson (some id) =>
    if id = "" then
      (some ("fallback-" ++ toString now), some "No session_id in response")
    else
      (some id, none)
  | SessionResponse.okJson none =>
    (some ("fallback-" ++ toString now), some "No session_id in response")
  | SessionResponse.netError =>
    (some ("fallback-" ++ toString now), some "Failed to initialize session")
  | SessionResponse.httpError code =>
    (some ("fallback-" ++ toString now),
      some ("HTTP error! status: " ++ toString code))

/-- The `disabled=\x7b!sessionId\x7d` predicate of the Call button: disabled
exactly when the sessionId state is null or an empty (falsy) string. -/
def callButtonDisabled (sessionId : Option String) : Bool :=
  match sessionId with
  | none => true
  | some s => s = ""

/-- Whether the backend handed back a usable (truthy) session id. -/
def sessionCreationSucceeded (resp : SessionResponse) : Bool :=
  match resp with
  | SessionResponse.okJson (some id) => ¬ (id = "")
  | _ => false

theorem fallback_id_ne_empty (now : Nat) : ("fallback-" ++ toString now) ≠ "" := by
  intro h
  have hlen := congrArg String.length h
  rw [String.length_append] at hlen
  have h9 : ("fallback-" : String).length = 9 := rfl
  rw [h9] at hlen
  simp at hlen

/-- C9. Whenever session creation fails (network error, HTTP error, or a
response with no truthy `session_id`), `initializeSession` still installs
the non-null fallback identifier `fallback-` followed by the timestamp, and
the Call button is enabled (not disabled) with it. -/
theorem c9_fallback_session (resp : SessionResponse) (now : Nat)
    (hfail : sessionCreationSucceeded resp = false) :
    (initializeSession resp now).1 = some ("fallback-" ++ toString now) ∧
      callButtonDisabled (initializeSession resp now).1 = false := by
  have hne := fallback_id_ne_empty now
  cases resp with
  | netError =>
    refine ⟨rfl, ?_⟩
    simp [initializeSession, callButtonDisabled, hne]
  | httpError code =>
    refine ⟨rfl, ?_⟩
    simp [initializeSession, callButtonDisabled, hne]
  | okJson sid =>
    cases sid with
    | none =>
      refine ⟨rfl, ?_⟩
      simp [initializeSession, callButtonDisabled, hne]
    | some id =>
      have hid : id = "" := by
        simp [sessionCreationSucceeded] at hfail
        exact hfail
      subst hid
      refine ⟨by simp [initializeSession], ?_⟩
      simp [initializeSession, callButtonDisabled, hne]

/-- Witness for C9: with the backend unreachable at timestamp 1736899200000,
the fallback id is installed and the Call button is enabled. -/
theorem c9_fallback_session_witness :
    sessionCreationSucceeded SessionResponse.netError = false ∧
      ((initializeSession SessionResponse.netError 1736899200000).1 =
          some ("fallback-" ++ toString 1736899200000) ∧
        callButtonDisabled
          (initializeSession SessionResponse.netError 1736899200000).1 = false) :=
  ⟨rfl, c9_fallback_session SessionResponse.netError 1736899200000 rfl⟩

/-! ## Call teardown (CallInterface.tsx endCall) -/

/-- The CallInterface component state
(`isConnected`, `isListening`, `isSpeaking`, `status`). -/
structure CallState where
  isConnected : Bool
  isListening : Bool
  isSpeaking : Bool
  status : String
  deriving DecidableEq

/-- The refs `endCall` consults: whether a WebSocket is present, how many
media tracks the captured stream has, whether a MediaRecorder exists,
whether an animation-frame handle is set, and whether the recorder is
currently recording. -/
structure CallResources where
  wsPresent : Bool
  trackCount : Nat
  recorderPresent : Bool
  loopHandleSet : Bool
  recordingActive : Bool
  deriving DecidableEq

/-- DOM side effects issued during teardown. -/
inductive DomAction
  | cancelFrameLoop
  | stopRecorder
  | closeWs
  | stopTrack (i : Nat)
  deriving DecidableEq

/-- Embeds `stopListening`: cancel the animation frame if a handle is set,
and stop the recorder if one exists and is recording. -/
def stopListeningActs (res : CallResources) : List DomAction :=
  (if res.loopHandleSet then [DomAction.cancelFrameLoop] else []) ++
    (if res.recorderPresent && res.recordingActive
      then [DomAction.stopRecorder] else [])

/-- Embeds `endCall` of CallInterface.tsx: run `stopListening`, close the
WebSocket if present, stop every track of the captured stream, stop the
recorder if present, then set the call state to disconnected, not
listening, not speaking, with status Call ended. -/
def endCall (res : CallResources) (s : CallState) : CallState × List DomAction :=
  ({ s with
      isConnected := false
      isListening := false
      isSpeaking := false
      status := "Call ended" },
    stopListeningActs res ++
      (if res.wsPresent then [DomAction.closeWs] else []) ++
      (List.range res.trackCount).map DomAction.stopTrack ++
      (if res.recorderPresent then [DomAction.stopRecorder] else []))

/-- C10. From any call state and any resource configuration, `endCall`
leaves `isConnected`, `isListening` and `isSpeaking` all false with status
Call ended, and its issued teardown actions close the present WebSocket,
stop every media track of the captured stream, and stop the present
recorder. -/
theorem c10_end_call (res : CallResources) (s : CallState) (i : Nat)
    (hws : res.wsPresent = true) (hrec : res.recorderPresent = true)
    (hi : i < res.trackCount) :
    (endCall res s).1 =
        ⟨false, false, false, "Call ended"⟩ ∧
      DomAction.closeWs ∈ (endCall res s).2 ∧
      DomAction.stopTrack i ∈ (endCall res s).2 ∧
      DomAction.stopRecorder ∈ (endCall res s).2 := by
  refine ⟨rfl, ?_, ?_, ?_⟩
  · simp [endCall, hws]
  · simp only [endCall, List.mem_append]
    refine Or.inl (Or.inr ?_)
    simp only [List.mem_map, List.mem_range]
    exact ⟨i, hi, rfl⟩
  · simp [endCall, hrec]

/-- Witness for C10: ending a call that is connected, speaking, with a
two-track stream, an open WebSocket, and a live recorder. -/
theorem c10_end_call_witness :
    ((⟨true, 2, true, true, true⟩ : CallResources).wsPresent = true ∧
        (⟨true, 2, true, true, true⟩ : CallResources).recorderPresent = true ∧
        1 < (⟨true, 2, true, true, true⟩ : CallResources).trackCount) ∧
      ((endCall ⟨true, 2, true, true, true⟩
            ⟨true, false, true, "Clinic agent speaking..."⟩).1 =
          ⟨false, false, false, "Call ended"⟩ ∧
        DomAction.closeWs ∈ (endCall ⟨true, 2, true, true, true⟩
          ⟨true, false, true, "Clinic agent speaking..."⟩).2 ∧
        DomAction.stopTrack 1 ∈ (endCall ⟨true, 2, true, true, true⟩
          ⟨true, false, true, "Clinic agent speaking..."⟩).2 ∧
        DomAction.stopRecorder ∈ (endCall ⟨true, 2, true, true, true⟩
          ⟨true, false, true, "Clinic agent speaking..."⟩).2) :=
  ⟨⟨rfl, rfl, by decide⟩,
    c10_end_call ⟨true, 2, true, true, true⟩
      ⟨true, false, true, "Clinic agent speaking..."⟩ 1 rfl rfl (by decide)⟩

end AICall
